import Mathlib

/-!
Verification of the passptt address-management application (src/app.py).

The Python source is shallowly embedded below: pure helper functions become
Lean functions over rationals, lists of characters and plain strings; the
spreadsheet store is a list of rows; HTTP responses of the two geocoding
providers are explicit response values passed as arguments. Numbers are
modelled by rationals, which represent the decimal literals of the source
exactly.
-/

namespace Passptt

/-! Constants of src/app.py (lines 17-24). -/

def FRANCE_LAT_MIN : ℚ := 41.0
def FRANCE_LAT_MAX : ℚ := 51.5
def FRANCE_LON_MIN : ℚ := -5.5
def FRANCE_LON_MAX : ℚ := 10.0
def FRANCE_CENTER : ℚ × ℚ := (46.603354, 1.888334)
def FRANCE_ZOOM : ℕ := 6
def GEOCODE_SCORE_MIN : ℚ := 0.4
def GEOCODE_SCORE_FALLBACK : ℚ := 0.3

/-! Python string primitives used by the source: str.strip, str.lower,
substring membership (the in operator) and str.split on a comma. -/

/-- Whitespace characters stripped by the Python str.strip method. -/
def isPySpace (c : Char) : Bool :=
  c = ' ' || c = '\t' || c = '\n' || c = '\r' || c = '\x0b' || c = '\x0c'

/-- Python str.strip on a character list: drop whitespace on both ends. -/
def stripL (l : List Char) : List Char :=
  ((l.dropWhile isPySpace).reverse.dropWhile isPySpace).reverse

/-- Python str.strip on strings. -/
def pyStrip (s : String) : String := ⟨stripL s.toList⟩

/-- Python str.lower on a character list (ASCII, as used by the source). -/
def pyLowerL (l : List Char) : List Char := l.map Char.toLower

/-- Python str.lower on strings. -/
def pyLower (s : String) : String := ⟨pyLowerL s.toList⟩

/-- Python substring membership: needle occurring contiguously in hay.
The empty needle is contained in every string, as in Python. -/
def hasSubstr (needle : List Char) : List Char → Bool
  | [] => needle.isEmpty
  | c :: rest => needle.isPrefixOf (c :: rest) || hasSubstr needle rest

/-! The scalar values a spreadsheet cell can hold when read back, fed to
the float builtin by normalize_coordinate (app.py lines 67-75). -/

inductive PyValue where
  | numV (q : ℚ)
  | strV (s : String)
  | noneV
deriving DecidableEq

/-- Digits of a decimal literal as a natural number, as a rational. -/
def digitsVal (l : List Char) : ℚ :=
  (l.foldl (fun acc c => 10 * acc + (c.toNat - '0'.toNat)) 0 : ℕ)

/-- Unsigned decimal literal: digits with an optional fractional part.
Returns none when the characters do not form such a literal. -/
def parseUnsignedDecimal (l : List Char) : Option ℚ :=
  let intPart := l.takeWhile Char.isDigit
  let rest := l.drop intPart.length
  match rest with
  | [] => if intPart.isEmpty then none else some (digitsVal intPart)
  | '.' :: frac =>
    let fracPart := frac.takeWhile Char.isDigit
    if (frac.drop fracPart.length).isEmpty then
      if intPart.isEmpty && fracPart.isEmpty then none
      else some (digitsVal intPart + digitsVal fracPart / 10 ^ fracPart.length)
    else none
  | _ => none

/-- The Python float builtin on a string, modelled for plain decimal forms:
surrounding whitespace, an optional sign, digits with an optional decimal
point. Exotic accepted forms (exponents, inf, nan) are not needed by the
specification examples and are out of the model. -/
def parseDecimal (s : String) : Option ℚ :=
  match stripL s.toList with
  | '-' :: rest => (parseUnsignedDecimal rest).map (fun q => -q)
  | '+' :: rest => parseUnsignedDecimal rest
  | l => parseUnsignedDecimal l

/-- The Python float builtin on a store scalar: numbers parse to themselves,
strings go through decimal parsing, None raises (modelled as none). -/
def pyFloat : PyValue → Option ℚ
  | PyValue.numV q => some q
  | PyValue.strV s => parseDecimal s
  | PyValue.noneV => none

/-- normalize_coordinate (app.py lines 67-75): parse the value as a float;
on failure return None; if the absolute value exceeds 360, divide by
1000000 (micro-degree repair). -/
def normalize_coordinate (value : PyValue) : Option ℚ :=
  match pyFloat value with
  | none => none
  | some coord => some (if 360 < |coord| then coord / 1000000 else coord)

/-- correct_paris_longitude (app.py lines 77-89): for truthy lat and lon,
an address containing paris (case-insensitively) or 75, and a longitude in
(0, 1), add 2 when the corrected value stays inside the France longitude
range; otherwise return the longitude unchanged. -/
def correct_paris_longitude (lat lon : ℚ) (address : String) : ℚ :=
  if lat ≠ 0 ∧ lon ≠ 0 then
    if (hasSubstr "paris".toList (pyLowerL address.toList)
          || hasSubstr "75".toList address.toList)
        ∧ (0 < lon ∧ lon < 1) then
      if FRANCE_LON_MIN ≤ lon + 2 ∧ lon + 2 ≤ FRANCE_LON_MAX then lon + 2
      else lon
    else lon
  else lon

/-- The user-visible message of validate_france_coordinates, by branch:
null coordinates, latitude out of France, longitude out of France, the
longitude-correction notice, or the empty message of a plain acceptance. -/
inductive ValidationMsg where
  | coordNulles
  | latOutOfFrance (lat : ℚ)
  | lonOutOfFrance (lon : ℚ)
  | corrected (oldLon newLon : ℚ)
  | empty
deriving DecidableEq

/-- validate_france_coordinates (app.py lines 91-115). Returns
(lat, lon, is_valid, message). -/
def validate_france_coordinates (lat lon : Option ℚ) (address : String) :
    Option ℚ × Option ℚ × Bool × ValidationMsg :=
  match lat, lon with
  | none, _ => (lat, lon, false, ValidationMsg.coordNulles)
  | some _, none => (lat, lon, false, ValidationMsg.coordNulles)
  | some la, some lo =>
    if ¬ (FRANCE_LAT_MIN ≤ la ∧ la ≤ FRANCE_LAT_MAX) then
      (lat, lon, false, ValidationMsg.latOutOfFrance la)
    else if ¬ (FRANCE_LON_MIN ≤ lo ∧ lo ≤ FRANCE_LON_MAX) then
      if (hasSubstr "paris".toList (pyLowerL address.toList)
            || hasSubstr "75".toList address.toList)
          ∧ (0 < lo ∧ lo < 1) then
        if FRANCE_LON_MIN ≤ lo + 2 ∧ lo + 2 ≤ FRANCE_LON_MAX then
          (lat, some (lo + 2), true, ValidationMsg.corrected lo (lo + 2))
        else (lat, lon, false, ValidationMsg.lonOutOfFrance lo)
      else (lat, lon, false, ValidationMsg.lonOutOfFrance lo)
    else (lat, lon, true, ValidationMsg.empty)

/-- is_in_france (app.py lines 117-120). -/
def is_in_france (lat lon : ℚ) : Bool :=
  decide (FRANCE_LAT_MIN ≤ lat ∧ lat ≤ FRANCE_LAT_MAX ∧
          FRANCE_LON_MIN ≤ lon ∧ lon ≤ FRANCE_LON_MAX)

/-! Geocoding (app.py lines 232-299). An HTTP interaction is embedded as an
explicit response argument: none models a raised exception (network error),
some a reply carrying a status code and the decoded feature list. A feature
holds geometry.coordinates as a list, read with indices 0 and 1 by the
source; a missing score or country property is an Option, read with the
defaults the source passes to properties.get. -/

structure ApiFeature where
  coords : List ℚ
  score : Option ℚ
deriving DecidableEq

structure ApiResponse where
  status : ℕ
  features : List ApiFeature
deriving DecidableEq

/-- try_api_adresse (app.py lines 232-258): on a 200 reply whose first
feature has an in-bounds coordinate, accept when the score (default 0)
reaches GEOCODE_SCORE_MIN or GEOCODE_SCORE_FALLBACK; every other path
returns none. -/
def try_api_adresse (resp : Option ApiResponse) : Option (ℚ × ℚ) :=
  match resp with
  | none => none
  | some r =>
    if r.status = 200 then
      match r.features with
      | [] => none
      | f :: _ =>
        match f.coords[0]?, f.coords[1]? with
        | some lonC, some latC =>
          if is_in_france latC lonC then
            if GEOCODE_SCORE_MIN ≤ f.score.getD 0 ∨
                GEOCODE_SCORE_FALLBACK ≤ f.score.getD 0 then
              some (latC, lonC)
            else none
          else none
        | _, _ => none
    else none

structure PhotonFeature where
  coords : List ℚ
  country : Option String
deriving DecidableEq

structure PhotonResponse where
  status : ℕ
  features : List PhotonFeature
deriving DecidableEq

/-- try_photon_api (app.py lines 260-284): on a 200 reply whose first
feature has an in-bounds coordinate, accept when the lowercased country
property (default the empty string) is france, fr or empty. -/
def try_photon_api (resp : Option PhotonResponse) : Option (ℚ × ℚ) :=
  match resp with
  | none => none
  | some r =>
    if r.status = 200 then
      match r.features with
      | [] => none
      | f :: _ =>
        match f.coords[0]?, f.coords[1]? with
        | some lonC, some latC =>
          if is_in_france latC lonC then
            if pyLower (f.country.getD "") ∈ (["france", "fr", ""] : List String) then
              some (latC, lonC)
            else none
          else none
        | _, _ => none
    else none

/-- geocode_address_france (app.py lines 286-299): blank addresses fail at
once; otherwise the primary provider result is returned when truthy, else
the secondary provider result. The pair (None, None) of the source is
modelled as none. -/
def geocode_address_france (address : String)
    (respA : Option ApiResponse) (respP : Option PhotonResponse) :
    Option (ℚ × ℚ) :=
  if pyStrip address = "" then none
  else
    match try_api_adresse respA with
    | some p => some p
    | none => try_photon_api respP

/-! The spreadsheet store (app.py lines 173-226 and 377-385). -/

/-- The header tuple written and expected by connect_to_google_sheet
(app.py lines 189-192). -/
def EXPECTED_HEADER : List String := ["Adresse", "Latitude", "Longitude", "Note"]

/-- The effect on the first row of the update of range A1:D1 with the
expected header: the first four cells are replaced, later cells remain. -/
def update_header_range (row : List String) : List String :=
  EXPECTED_HEADER ++ row.drop 4

/-- The header bootstrapping step of connect_to_google_sheet (app.py lines
187-192): read the first row; when it is empty or differs from the expected
header, write the expected header over A1:D1. Returns the resulting first
row and whether a write was issued. -/
def ensure_sheet_header (row : List String) : List String × Bool :=
  if row = [] ∨ row ≠ EXPECTED_HEADER then (update_header_range row, true)
  else (row, false)

/-- One data row of the store as read back by get_all_records: the address
cell, the two coordinate cells as raw scalars, and the note cell when the
Note column exists. -/
structure AddressRow where
  adresse : String
  latV : PyValue
  lonV : PyValue
  note : Option String
deriving DecidableEq

/-- One listed record after reading: normalized coordinates and a note
defaulted to the empty string. -/
structure AddressRecord where
  adresse : String
  latitude : ℚ
  longitude : ℚ
  note : String
deriving DecidableEq

/-- Reading one row as the specification describes listAll: normalize both
coordinates, drop the row when either normalization fails, default the note.
Stated from the specification wording for comparison with the source
function get_all_addresses, which additionally corrects Paris longitudes. -/
def rowToRecord (r : AddressRow) : Option AddressRecord :=
  match normalize_coordinate r.latV, normalize_coordinate r.lonV with
  | some la, some lo => some ⟨r.adresse, la, lo, r.note.getD ""⟩
  | _, _ => none

/-- listAll as worded by the specification: normalization, dropping failed
rows, defaulting notes — and nothing else. -/
def listAllSpec (rows : List AddressRow) : List AddressRecord :=
  rows.filterMap rowToRecord

/-- The Paris-longitude pass applied to one listed record, as in the apply
call of get_all_addresses (app.py lines 217-220). -/
def applyParisFix (rec : AddressRecord) : AddressRecord :=
  { rec with
    longitude := correct_paris_longitude rec.latitude rec.longitude rec.adresse }

/-- get_all_addresses (app.py lines 200-226): normalize both coordinate
columns, drop rows where a normalization failed, default missing notes to
the empty string, then rewrite each longitude through
correct_paris_longitude. Row order is preserved. -/
def get_all_addresses (rows : List AddressRow) : List AddressRecord :=
  rows.filterMap fun r =>
    match normalize_coordinate r.latV, normalize_coordinate r.lonV with
    | some la, some lo =>
      some ⟨r.adresse, la, correct_paris_longitude la lo r.adresse, r.note.getD ""⟩
    | _, _ => none

/-- The delete_rows call of gspread on a 1-based row number: remove that row
from the sheet. -/
def sheet_delete_rows (rows : List (List String)) (n : ℕ) : List (List String) :=
  rows.take (n - 1) ++ rows.drop n

/-- delete_address (app.py lines 377-385): a display index is translated to
the store row index + 2 and that row is deleted. -/
def delete_address (sheet : List (List String)) (index : ℕ) : List (List String) :=
  sheet_delete_rows sheet (index + 2)

/-! The map renderer (app.py lines 122-167 and 391-437). The rendered map
is abstracted to its observable parameters: initial center and zoom, the
marker list, and the optional fitted rectangle with its padding. -/

/-- One Folium marker: location latitude and longitude, address, note. -/
def create_marker (lat lon : ℚ) (address note : String) : ℚ × ℚ × String × String :=
  (lat, lon, address, note)

structure MapView where
  center : ℚ × ℚ
  zoom : ℕ
  markers : List (ℚ × ℚ × String × String)
  fit : Option (((ℚ × ℚ) × (ℚ × ℚ)) × (ℕ × ℕ))
deriving DecidableEq

/-- create_empty_france_map (app.py lines 122-128). -/
def create_empty_france_map : MapView :=
  ⟨FRANCE_CENTER, FRANCE_ZOOM, [], none⟩

/-- The france_coords selection of display_map (app.py lines 399-402):
records whose coordinates lie between the France bounds, both inclusive. -/
def validRecords (df : List AddressRecord) : List AddressRecord :=
  df.filter fun r => is_in_france r.latitude r.longitude

/-- Mean of a list of rationals, as the pandas mean of a column. -/
def qMean (l : List ℚ) : ℚ := l.sum / (l.length : ℚ)

/-- Minimum of a list of rationals, 0 on the empty list (only applied to
nonempty columns, as the pandas min of a column). -/
def qListMin : List ℚ → ℚ
  | [] => 0
  | x :: xs => xs.foldl min x

/-- Maximum of a list of rationals, 0 on the empty list. -/
def qListMax : List ℚ → ℚ
  | [] => 0
  | x :: xs => xs.foldl max x

/-- display_map (app.py lines 391-437): empty input or no in-bounds record
renders the empty France map; exactly one in-bounds record centers on it at
zoom 14 with one marker; several in-bounds records center on the mean at
zoom 8, carry one marker each, and fit the min/max rectangle with padding
30, 30. -/
def display_map (df : List AddressRecord) : MapView :=
  match df with
  | [] => create_empty_france_map
  | d :: ds =>
    match validRecords (d :: ds) with
    | [] => create_empty_france_map
    | [r] => ⟨(r.latitude, r.longitude), 14,
              [create_marker r.latitude r.longitude r.adresse r.note], none⟩
    | r1 :: r2 :: rest =>
      let fc := r1 :: r2 :: rest
      let lats := fc.map AddressRecord.latitude
      let lons := fc.map AddressRecord.longitude
      ⟨(qMean lats, qMean lons), 8,
        fc.map fun r => create_marker r.latitude r.longitude r.adresse r.note,
        some (((qListMin lats, qListMin lons), (qListMax lats, qListMax lons)),
              (30, 30))⟩

/-! The batch parser parse_addresses_with_notes (app.py lines 44-65). The
two regular expressions of the source are embedded directly: search of
backslash-paren [^)]+ paren finds the first group of one or more non-paren
characters between parentheses; sub of whitespace* followed by that pattern
deletes every such occurrence together with the whitespace run immediately
before it, scanning left to right without overlap. -/

/-- Python str.split on a comma: every comma separates, empty fragments are
kept, the empty string yields one empty fragment. -/
def splitComma : List Char → List (List Char)
  | [] => [[]]
  | c :: rest =>
    if c = ',' then [] :: splitComma rest
    else
      match splitComma rest with
      | [] => [[c]]
      | g :: gs => (c :: g) :: gs

/-- One attempt of the sub pattern at the current position: a greedy
whitespace run, an opening parenthesis, a nonempty run of non-closing
characters, a closing parenthesis. On success returns the remainder of the
list after the match. -/
def tryNoteMatch (l : List Char) : Option (List Char) :=
  let w := l.takeWhile isPySpace
  match l.drop w.length with
  | '(' :: r2 =>
    let run := r2.takeWhile fun d => d ≠ ')'
    if 0 < run.length ∧ (r2.drop run.length).head? = some ')' then
      some (r2.drop (run.length + 1))
    else none
  | _ => none

/-- re.search of the note pattern: the content of the first parenthesized
group of one or more non-closing characters, scanning left to right. -/
def findNote : List Char → Option (List Char)
  | [] => none
  | c :: rest =>
    if c = '(' then
      let run := rest.takeWhile fun d => d ≠ ')'
      if 0 < run.length ∧ (rest.drop run.length).head? = some ')' then some run
      else findNote rest
    else findNote rest

/-- Worker of the sub call, with fuel bounding the number of scanned
positions. Each step either consumes one character (no match here) or at
least three (a match), so fuel equal to the length of the list suffices and
the zero-fuel fallback is never reached from subNotes. -/
def subNotesAux : ℕ → List Char → List Char
  | _, [] => []
  | 0, l => l
  | fuel + 1, c :: rest =>
    match tryNoteMatch (c :: rest) with
    | some rem => subNotesAux fuel rem
    | none => c :: subNotesAux fuel rest

/-- re.sub of the note pattern with the empty replacement: delete every
parenthesized group together with the whitespace run immediately before
it. -/
def subNotes (l : List Char) : List Char := subNotesAux l.length l

/-- Deletion of only the first parenthesized group, following the claim
wording (extract the first group and strip it); kept for comparison with
the sub call of the source, which strips every group. -/
def subFirstNote : List Char → List Char
  | [] => []
  | c :: rest =>
    match tryNoteMatch (c :: rest) with
    | some rem => rem
    | none => c :: subFirstNote rest

/-- The body of the parsing loop for one already-stripped fragment
(app.py lines 49-63): skip empty fragments; extract the first group as the
note and delete every group from the address; keep the pair when the
cleaned address is nonempty. -/
def processFragment (addr : List Char) : Option (List Char × List Char) :=
  match addr with
  | [] => none
  | _ :: _ =>
    match findNote addr with
    | some g =>
      let clean := stripL (subNotes addr)
      if clean.isEmpty then none else some (clean, stripL g)
    | none =>
      let clean := stripL addr
      if clean.isEmpty then none else some (clean, [])

/-- The fragment step as the claim words it: only the first parenthesized
group is stripped from the address. -/
def processFragmentFirstOnly (addr : List Char) : Option (List Char × List Char) :=
  match addr with
  | [] => none
  | _ :: _ =>
    match findNote addr with
    | some g =>
      let clean := stripL (subFirstNote addr)
      if clean.isEmpty then none else some (clean, stripL g)
    | none =>
      let clean := stripL addr
      if clean.isEmpty then none else some (clean, [])

/-- parse_addresses_with_notes on character lists: split on commas, strip
each fragment, process the fragments in order. -/
def parseL (l : List Char) : List (List Char × List Char) :=
  ((splitComma l).map stripL).filterMap processFragment

/-- The claim-worded parser on character lists: identical pipeline except
that only the first parenthesized group is stripped from a fragment. -/
def parseFirstOnlyL (l : List Char) : List (List Char × List Char) :=
  ((splitComma l).map stripL).filterMap processFragmentFirstOnly

/-- parse_addresses_with_notes (app.py lines 44-65) on strings. -/
def parse_addresses_with_notes (input : String) : List (String × String) :=
  (parseL input.toList).map fun p => (⟨p.1⟩, ⟨p.2⟩)

/-- The parser as the claim words it, on strings: strips only the first
parenthesized group of each fragment. -/
def parse_addresses_first_only (input : String) : List (String × String) :=
  (parseFirstOnlyL input.toList).map fun p => (⟨p.1⟩, ⟨p.2⟩)

/-! Helper lemmas. -/

theorem splitComma_ne_nil : ∀ l : List Char, splitComma l ≠ [] := by
  intro l
  induction l with
  | nil => simp [splitComma]
  | cons c rest ih =>
    simp only [splitComma]
    split_ifs
    · simp
    · cases h : splitComma rest with
      | nil => exact absurd h ih
      | cons g gs => simp

theorem splitComma_cons (c : Char) (l : List Char) :
    splitComma (c :: l) =
      if c = ',' then [] :: splitComma l
      else
        match splitComma l with
        | [] => [[c]]
        | g :: gs => (c :: g) :: gs := rfl

theorem splitComma_append :
    ∀ s t : List Char, splitComma (s ++ ',' :: t) = splitComma s ++ splitComma t := by
  intro s t
  induction s with
  | nil =>
    rw [List.nil_append, splitComma_cons, if_pos rfl]
    rfl
  | cons c s ih =>
    rw [List.cons_append, splitComma_cons, splitComma_cons]
    by_cases hc : c = ','
    · rw [if_pos hc, if_pos hc, ih, List.cons_append]
    · rw [if_neg hc, if_neg hc, ih]
      obtain ⟨g, gs, hg⟩ := List.exists_cons_of_ne_nil (splitComma_ne_nil s)
      rw [hg]
      rfl

theorem splitComma_no_comma : ∀ l : List Char, ',' ∉ l → splitComma l = [l] := by
  intro l
  induction l with
  | nil => intro _; rfl
  | cons c rest ih =>
    intro h
    have hc : c ≠ ',' := by
      rintro rfl
      exact h (List.mem_cons_self _ _)
    have hrest : ',' ∉ rest := fun hm => h (List.mem_cons_of_mem _ hm)
    rw [splitComma, if_neg (fun he => hc he), ih hrest]

theorem foldl_min_le (l : List ℚ) : ∀ x : ℚ, l.foldl min x ≤ x := by
  induction l with
  | nil => intro x; simp
  | cons a as ih =>
    intro x
    simp only [List.foldl_cons]
    exact le_trans (ih (min x a)) (min_le_left x a)

theorem foldl_min_le_mem (l : List ℚ) : ∀ x : ℚ, ∀ y ∈ l, l.foldl min x ≤ y := by
  induction l with
  | nil => intro x y hy; simp at hy
  | cons a as ih =>
    intro x y hy
    rcases List.mem_cons.mp hy with rfl | hy
    · simp only [List.foldl_cons]
      exact le_trans (foldl_min_le as (min x y)) (min_le_right x y)
    · exact ih (min x a) y hy

theorem foldl_min_mem (l : List ℚ) : ∀ x : ℚ, l.foldl min x = x ∨ l.foldl min x ∈ l := by
  induction l with
  | nil => intro x; simp
  | cons a as ih =>
    intro x
    simp only [List.foldl_cons, List.mem_cons]
    rcases ih (min x a) with h | h
    · rcases le_total x a with hxa | hax
      · left; rw [h, min_eq_left hxa]
      · right; left; rw [h, min_eq_right hax]
    · right; right; exact h

theorem foldl_max_ge (l : List ℚ) : ∀ x : ℚ, x ≤ l.foldl max x := by
  induction l with
  | nil => intro x; simp
  | cons a as ih =>
    intro x
    simp only [List.foldl_cons]
    exact le_trans (le_max_left x a) (ih (max x a))

theorem foldl_max_ge_mem (l : List ℚ) : ∀ x : ℚ, ∀ y ∈ l, y ≤ l.foldl max x := by
  induction l with
  | nil => intro x y hy; simp at hy
  | cons a as ih =>
    intro x y hy
    rcases List.mem_cons.mp hy with rfl | hy
    · simp only [List.foldl_cons]
      exact le_trans (le_max_right x y) (foldl_max_ge as (max x y))
    · exact ih (max x a) y hy

theorem foldl_max_mem (l : List ℚ) : ∀ x : ℚ, l.foldl max x = x ∨ l.foldl max x ∈ l := by
  induction l with
  | nil => intro x; simp
  | cons a as ih =>
    intro x
    simp only [List.foldl_cons, List.mem_cons]
    rcases ih (max x a) with h | h
    · rcases le_total x a with hxa | hax
      · right; left; rw [h, max_eq_right hxa]
      · left; rw [h, max_eq_left hax]
    · right; right; exact h

theorem qListMin_le (a : ℚ) (as : List ℚ) : ∀ y ∈ a :: as, qListMin (a :: as) ≤ y := by
  intro y hy
  rcases List.mem_cons.mp hy with rfl | hy
  · exact foldl_min_le as y
  · exact foldl_min_le_mem as a y hy

theorem qListMin_mem (a : ℚ) (as : List ℚ) : qListMin (a :: as) ∈ a :: as := by
  rcases foldl_min_mem as a with h | h
  · rw [qListMin, h]; exact List.mem_cons_self _ _
  · exact List.mem_cons_of_mem _ h

theorem qListMax_ge (a : ℚ) (as : List ℚ) : ∀ y ∈ a :: as, y ≤ qListMax (a :: as) := by
  intro y hy
  rcases List.mem_cons.mp hy with rfl | hy
  · exact foldl_max_ge as y
  · exact foldl_max_ge_mem as a y hy

theorem qListMax_mem (a : ℚ) (as : List ℚ) : qListMax (a :: as) ∈ a :: as := by
  rcases foldl_max_mem as a with h | h
  · rw [qListMax, h]; exact List.mem_cons_self _ _
  · exact List.mem_cons_of_mem _ h

theorem normalize_small_nonneg (q : ℚ) (h0 : 0 ≤ q) (h360 : q ≤ 360) :
    normalize_coordinate (PyValue.numV q) = some q := by
  simp only [normalize_coordinate, pyFloat]
  rw [if_neg]
  rw [abs_of_nonneg h0]
  exact not_lt.mpr h360

/-! The claims. -/

/-- C1: the specification requires validate(48.85, 0.35, address containing
Paris) to return (48.85, 2.35) with a correction notice, but the source
places the Paris repair under the longitude-out-of-range test, which a
longitude in (0, 1) can never pass; the call is accepted unchanged with no
notice. The other two specification examples hold. The sibling function
correct_paris_longitude and the source comments show the correction was
intended for exactly this input. -/
theorem validate_paris_example_eval :
    validate_france_coordinates (some 48.85) (some 0.35) "10 rue X, Paris" =
      (some 48.85, some 0.35, true, ValidationMsg.empty) ∧
    validate_france_coordinates (some 45) (some 2) "Lyon" =
      (some 45, some 2, true, ValidationMsg.empty) ∧
    validate_france_coordinates (some 60) (some 2) "x" =
      (some 60, some 2, false, ValidationMsg.latOutOfFrance 60) := by
  refine ⟨?_, ?_, ?_⟩
  · simp only [validate_france_coordinates]
    rw [if_neg (not_not_intro
        ⟨by norm_num [FRANCE_LAT_MIN], by norm_num [FRANCE_LAT_MAX]⟩),
      if_neg (not_not_intro
        ⟨by norm_num [FRANCE_LON_MIN], by norm_num [FRANCE_LON_MAX]⟩)]
  · simp only [validate_france_coordinates]
    rw [if_neg (not_not_intro
        ⟨by norm_num [FRANCE_LAT_MIN], by norm_num [FRANCE_LAT_MAX]⟩),
      if_neg (not_not_intro
        ⟨by norm_num [FRANCE_LON_MIN], by norm_num [FRANCE_LON_MAX]⟩)]
  · simp only [validate_france_coordinates]
    rw [if_pos (fun h => absurd h.2 (by norm_num [FRANCE_LAT_MAX]))]

/-- C2: normalize_coordinate returns the parsed value unchanged when its
absolute value is at most 360, divides by 1000000 when the absolute value
exceeds 360, and returns none when parsing fails; including the three
specification examples. -/
theorem normalize_coordinate_spec :
    ∀ (v : PyValue) (q : ℚ),
      (pyFloat v = some q →
        ((|q| ≤ 360 → normalize_coordinate v = some q) ∧
         (360 < |q| → normalize_coordinate v = some (q / 1000000)))) ∧
      (pyFloat v = none → normalize_coordinate v = none) ∧
      normalize_coordinate (PyValue.numV 48.857739) = some 48.857739 ∧
      normalize_coordinate (PyValue.numV 48857739) = some 48.857739 ∧
      normalize_coordinate (PyValue.strV "abc") = none := by
  intro v q
  refine ⟨fun h => ⟨fun hle => ?_, fun hgt => ?_⟩, fun h => ?_, ?_, ?_, by decide⟩
  · rw [normalize_coordinate, h]
    simp [not_lt.mpr hle]
  · rw [normalize_coordinate, h]
    simp [hgt]
  · rw [normalize_coordinate, h]
  · simp only [normalize_coordinate, pyFloat]
    rw [if_neg (by rw [abs_of_nonneg] <;> norm_num)]
  · simp only [normalize_coordinate, pyFloat]
    rw [if_pos (by rw [abs_of_nonneg] <;> norm_num)]
    norm_num

/-- C2 witness: a concrete in-range value is returned unchanged. -/
theorem normalize_coordinate_spec_witness :
    normalize_coordinate (PyValue.numV 5) = some 5 :=
  ((normalize_coordinate_spec (PyValue.numV 5) 5).1 rfl).1
    (by rw [abs_of_nonneg] <;> norm_num)

/-- C10: validate_france_coordinates never returns a correction notice: the
correction branch needs a longitude outside the France range that also lies
in (0, 1), which is contradictory, so every output is the unmodified input
accepted with the empty message, or a rejection. -/
theorem validator_no_correction_spec :
    ∀ (lat lon : Option ℚ) (addr : String),
      (validate_france_coordinates lat lon addr).1 = lat ∧
      (validate_france_coordinates lat lon addr).2.1 = lon ∧
      (∀ o n, (validate_france_coordinates lat lon addr).2.2.2 ≠
        ValidationMsg.corrected o n) ∧
      ((validate_france_coordinates lat lon addr).2.2.1 = true →
        validate_france_coordinates lat lon addr = (lat, lon, true, ValidationMsg.empty)) ∧
      (∀ lo : ℚ, ¬ (¬ (FRANCE_LON_MIN ≤ lo ∧ lo ≤ FRANCE_LON_MAX) ∧ 0 < lo ∧ lo < 1)) := by
  have hdead : ∀ lo : ℚ, ¬ (¬ (FRANCE_LON_MIN ≤ lo ∧ lo ≤ FRANCE_LON_MAX) ∧ 0 < lo ∧ lo < 1) := by
    intro lo h
    refine h.1 ⟨?_, ?_⟩
    · rw [FRANCE_LON_MIN]; linarith [h.2.1]
    · rw [FRANCE_LON_MAX]; linarith [h.2.2]
  intro lat lon addr
  rcases lat with _ | la
  · exact ⟨rfl, rfl, fun o n h => ValidationMsg.noConfusion h,
      fun hv => Bool.noConfusion hv, hdead⟩
  rcases lon with _ | lo
  · exact ⟨rfl, rfl, fun o n h => ValidationMsg.noConfusion h,
      fun hv => Bool.noConfusion hv, hdead⟩
  refine ⟨?_, ?_, ?_, ?_, hdead⟩
  · simp only [validate_france_coordinates]
    split_ifs <;> rfl
  · simp only [validate_france_coordinates]
    split_ifs with h1 h2 h3 h4
    · rfl
    · exact absurd ⟨h2, h3.2⟩ (hdead lo)
    · rfl
    · rfl
    · rfl
  · intro o n h
    simp only [validate_france_coordinates] at h
    split_ifs at h with h1 h2 h3 h4
    exact (hdead lo) ⟨h2, h3.2⟩
  · intro hv
    simp only [validate_france_coordinates] at hv ⊢
    split_ifs at hv ⊢ with h1 h2 h3 h4
    · rfl
    · exact absurd ⟨h2, h3.2⟩ (hdead lo)

/-- C10 witness: a valid Lyon call is returned unchanged with the empty
message. -/
theorem validator_no_correction_spec_witness :
    validate_france_coordinates (some 45) (some 2) "Lyon" =
      (some 45, some 2, true, ValidationMsg.empty) := by
  have hval : (validate_france_coordinates (some 45) (some 2) "Lyon").2.2.1 = true := by
    simp only [validate_france_coordinates]
    rw [if_neg (not_not_intro
        ⟨by norm_num [FRANCE_LAT_MIN], by norm_num [FRANCE_LAT_MAX]⟩),
      if_neg (not_not_intro
        ⟨by norm_num [FRANCE_LON_MIN], by norm_num [FRANCE_LON_MAX]⟩)]
  exact (validator_no_correction_spec (some 45) (some 2) "Lyon").2.2.2.1 hval

/-- C6 counterexample: on a stored Paris row with longitude 0.35, the source
returns longitude 2.35 while the claim (normalization only) yields 0.35:
listing applies a transformation beyond normalization. -/
theorem get_all_addresses_counterexample :
    get_all_addresses [⟨"Paris", PyValue.numV 48.85, PyValue.numV 0.35, some ""⟩] =
      [⟨"Paris", 48.85, 2.35, ""⟩] ∧
    listAllSpec [⟨"Paris", PyValue.numV 48.85, PyValue.numV 0.35, some ""⟩] =
      [⟨"Paris", 48.85, 0.35, ""⟩] ∧
    get_all_addresses [⟨"Paris", PyValue.numV 48.85, PyValue.numV 0.35, some ""⟩] ≠
      listAllSpec [⟨"Paris", PyValue.numV 48.85, PyValue.numV 0.35, some ""⟩] := by
  have hn1 : normalize_coordinate (PyValue.numV 48.85) = some 48.85 :=
    normalize_small_nonneg 48.85 (by norm_num) (by norm_num)
  have hn2 : normalize_coordinate (PyValue.numV 0.35) = some 0.35 :=
    normalize_small_nonneg 0.35 (by norm_num) (by norm_num)
  have hc : correct_paris_longitude 48.85 0.35 "Paris" = 2.35 := by
    rw [correct_paris_longitude,
      if_pos ⟨by norm_num, by norm_num⟩,
      if_pos ⟨by decide, by norm_num, by norm_num⟩,
      if_pos ⟨by norm_num [FRANCE_LON_MIN], by norm_num [FRANCE_LON_MAX]⟩]
    norm_num
  have e1 : get_all_addresses [⟨"Paris", PyValue.numV 48.85, PyValue.numV 0.35, some ""⟩] =
      [⟨"Paris", 48.85, 2.35, ""⟩] := by
    simp only [get_all_addresses, List.filterMap_cons, List.filterMap_nil, hn1, hn2]
    simp [hc]
  have e2 : listAllSpec [⟨"Paris", PyValue.numV 48.85, PyValue.numV 0.35, some ""⟩] =
      [⟨"Paris", 48.85, 0.35, ""⟩] := by
    simp only [listAllSpec, List.filterMap_cons, List.filterMap_nil, rowToRecord, hn1, hn2]
    simp
  refine ⟨e1, e2, ?_⟩
  rw [e1, e2]
  intro h
  have h2 : (2.35 : ℚ) = 0.35 := congrArg AddressRecord.longitude (List.head_eq_of_cons_eq h)
  norm_num at h2

/-- C6 amended: listing equals the claim pipeline (store order, normalized
coordinates, rows with failed normalization dropped, notes defaulted to the
empty string) followed by the Paris longitude correction applied to every
surviving row. -/
theorem get_all_addresses_spec_amended :
    ∀ rows : List AddressRow,
      get_all_addresses rows = (listAllSpec rows).map applyParisFix := by
  intro rows
  rw [get_all_addresses, listAllSpec, List.map_filterMap]
  congr 1
  funext r
  rw [rowToRecord]
  cases normalize_coordinate r.latV <;> cases normalize_coordinate r.lonV <;>
    simp [applyParisFix]

/-- C7 counterexample: a first row holding the three-column header tuple is
rewritten by connect, although the claim says it is left unchanged. -/
theorem connect_header_counterexample :
    (ensure_sheet_header ["Adresse", "Latitude", "Longitude"]).2 = true ∧
    (ensure_sheet_header ["Adresse", "Latitude", "Longitude"]).1 ≠
      ["Adresse", "Latitude", "Longitude"] := by decide

/-- C7 amended: connect leaves the first row unchanged exactly when it
equals the four-column header tuple; otherwise it writes the expected
header over the first four cells; a second run issues no write provided the
first row had at most four cells. -/
theorem ensure_header_spec_amended :
    ∀ row : List String,
      ((ensure_sheet_header row).2 = false ↔ row = EXPECTED_HEADER) ∧
      ((ensure_sheet_header row).2 = false → (ensure_sheet_header row).1 = row) ∧
      ((ensure_sheet_header row).2 = true →
        (ensure_sheet_header row).1 = EXPECTED_HEADER ++ row.drop 4) ∧
      (row.length ≤ 4 → (ensure_sheet_header (ensure_sheet_header row).1).2 = false) := by
  intro row
  by_cases h : row = EXPECTED_HEADER
  · subst h
    have e : ensure_sheet_header EXPECTED_HEADER = (EXPECTED_HEADER, false) := by decide
    rw [e]
    exact ⟨by simp, fun _ => rfl, fun hv => Bool.noConfusion hv, fun _ => by rw [e]⟩
  · have e : ensure_sheet_header row = (update_header_range row, true) := by
      rw [ensure_sheet_header, if_pos (Or.inr h)]
    rw [e]
    refine ⟨by simp [h], fun hv => Bool.noConfusion hv, fun _ => rfl, fun hlen => ?_⟩
    have hd : row.drop 4 = [] := List.drop_eq_nil_of_le hlen
    have hu : update_header_range row = EXPECTED_HEADER := by
      rw [update_header_range, hd, List.append_nil]
    rw [hu]
    decide

/-- C7 witness: starting from an absent first row, the second run issues no
write. -/
theorem ensure_header_spec_amended_witness :
    (ensure_sheet_header (ensure_sheet_header []).1).2 = false :=
  (ensure_header_spec_amended []).2.2.2 (by decide)

/-- C9: deleting display index i on a sheet of a header row followed by the
records removes exactly the record at position i (store row i + 2); in
particular index 0 removes the first record, the store row numbered 2. -/
theorem delete_address_spec :
    ∀ (header : List String) (records : List (List String)) (i : ℕ),
      delete_address (header :: records) i =
        header :: (records.take i ++ records.drop (i + 1)) ∧
      (∀ r1 rs, delete_address (header :: r1 :: rs) 0 = header :: rs) ∧
      (i < records.length →
        (delete_address (header :: records) i).length + 1 =
          (header :: records).length) := by
  have hmain : ∀ (h : List String) (recs : List (List String)) (j : ℕ),
      delete_address (h :: recs) j = h :: (recs.take j ++ recs.drop (j + 1)) := by
    intro h recs j
    rw [delete_address, sheet_delete_rows]
    have h21 : j + 2 - 1 = j + 1 := by omega
    have h22 : j + 2 = (j + 1) + 1 := by omega
    rw [h21, h22, List.take_succ_cons, List.drop_succ_cons, List.cons_append]
  intro header records i
  refine ⟨hmain header records i, fun r1 rs => ?_, fun hlt => ?_⟩
  · rw [hmain header (r1 :: rs) 0]
    simp
  · rw [hmain header records i]
    simp only [List.length_cons, List.length_append, List.length_take, List.length_drop]
    omega

/-- C4: for a primary-provider reply yielding a feature with coordinates and
score, an out-of-bounds coordinate gives no result; an in-bounds coordinate
is accepted when the score reaches 0.4 or, as the softer fallback, 0.3, and
rejected when the score is below 0.3. -/
theorem try_api_adresse_spec :
    ∀ (r : ApiResponse) (f : ApiFeature) (rest : List ApiFeature) (lonC latC : ℚ),
      r.status = 200 → r.features = f :: rest →
      f.coords[0]? = some lonC → f.coords[1]? = some latC →
      (is_in_france latC lonC = false → try_api_adresse (some r) = none) ∧
      (is_in_france latC lonC = true →
        ((GEOCODE_SCORE_MIN ≤ f.score.getD 0 ∨ GEOCODE_SCORE_FALLBACK ≤ f.score.getD 0) →
          try_api_adresse (some r) = some (latC, lonC)) ∧
        (f.score.getD 0 < GEOCODE_SCORE_FALLBACK → try_api_adresse (some r) = none)) := by
  intro r f rest lonC latC hst hf h0 h1
  have e : try_api_adresse (some r) =
      if is_in_france latC lonC then
        if GEOCODE_SCORE_MIN ≤ f.score.getD 0 ∨ GEOCODE_SCORE_FALLBACK ≤ f.score.getD 0 then
          some (latC, lonC)
        else none
      else none := by
    simp [try_api_adresse, hst, hf, h0, h1]
  refine ⟨fun hout => ?_, fun hin => ⟨fun hsc => ?_, fun hlt => ?_⟩⟩
  · rw [e, if_neg (by simp [hout])]
  · rw [e, if_pos hin, if_pos hsc]
  · have hn : ¬ (GEOCODE_SCORE_MIN ≤ f.score.getD 0 ∨
        GEOCODE_SCORE_FALLBACK ≤ f.score.getD 0) := by
      push_neg
      refine ⟨lt_of_lt_of_le hlt ?_, hlt⟩
      norm_num [GEOCODE_SCORE_FALLBACK, GEOCODE_SCORE_MIN]
    rw [e, if_pos hin, if_neg hn]

/-- C4 witness: a 200 reply with an in-bounds coordinate and score 0.5 is
accepted. -/
theorem try_api_adresse_spec_witness :
    try_api_adresse (some ⟨200, [⟨[2, 48], some 0.5⟩]⟩) = some (48, 2) := by
  have h := try_api_adresse_spec ⟨200, [⟨[2, 48], some 0.5⟩]⟩ ⟨[2, 48], some 0.5⟩ [] 2 48
    rfl rfl rfl rfl
  have hin : is_in_france 48 2 = true := by
    simp only [is_in_france, decide_eq_true_eq]
    norm_num [FRANCE_LAT_MIN, FRANCE_LAT_MAX, FRANCE_LON_MIN, FRANCE_LON_MAX]
  exact (h.2 hin).1 (Or.inl (by norm_num [GEOCODE_SCORE_MIN, Option.getD_some]))

/-- C5: with a nonblank address, the chain returns the primary result
whenever the primary accepts (independently of the secondary reply), falls
back to the secondary exactly when the primary yields nothing, only accepts
a secondary coordinate that is in-bounds with country france, fr or empty,
and fails exactly when both providers fail. -/
theorem geocode_fallback_spec :
    ∀ (address : String) (respA : Option ApiResponse) (respP : Option PhotonResponse),
      pyStrip address ≠ "" →
      (∀ p, try_api_adresse respA = some p →
        geocode_address_france address respA respP = some p ∧
        ∀ respP2, geocode_address_france address respA respP2 = some p) ∧
      (try_api_adresse respA = none →
        geocode_address_france address respA respP = try_photon_api respP) ∧
      (∀ (resp2 : PhotonResponse) (f : PhotonFeature) (rest : List PhotonFeature)
          (p : ℚ × ℚ) (lonC latC : ℚ),
        respP = some resp2 → resp2.features = f :: rest →
        f.coords[0]? = some lonC → f.coords[1]? = some latC →
        try_photon_api respP = some p →
        p = (latC, lonC) ∧ is_in_france latC lonC = true ∧
        pyLower (f.country.getD "") ∈ (["france", "fr", ""] : List String)) ∧
      (geocode_address_france address respA respP = none ↔
        try_api_adresse respA = none ∧ try_photon_api respP = none) := by
  intro address respA respP hne
  have hgeo : ∀ rp : Option PhotonResponse,
      geocode_address_france address respA rp =
        match try_api_adresse respA with
        | some p => some p
        | none => try_photon_api rp := by
    intro rp
    simp only [geocode_address_france, if_neg hne]
  refine ⟨?_, ?_, ?_, ?_⟩
  · intro p hp
    refine ⟨?_, fun respP2 => ?_⟩
    · rw [hgeo, hp]
    · rw [hgeo, hp]
  · intro h0
    rw [hgeo, h0]
  · intro resp2 f rest p lonC latC hr hf h0 h1 hps
    subst hr
    simp only [try_photon_api, hf, h0, h1] at hps
    split_ifs at hps with hs hin hc
    exact ⟨(Option.some.inj hps).symm, hin, hc⟩
  · constructor
    · intro h0
      rw [hgeo] at h0
      cases ha : try_api_adresse respA with
      | some p => rw [ha] at h0; exact absurd h0 (by simp)
      | none => rw [ha] at h0; exact ⟨rfl, h0⟩
    · rintro ⟨ha, hp⟩
      rw [hgeo, ha, hp]

/-- C5 witness: an accepting primary reply short-circuits the chain. -/
theorem geocode_fallback_spec_witness :
    geocode_address_france "x" (some ⟨200, [⟨[2, 48], some 0.5⟩]⟩) none = some (48, 2) := by
  have hA : try_api_adresse (some ⟨200, [⟨[2, 48], some 0.5⟩]⟩) = some (48, 2) := by
    have step : try_api_adresse (some ⟨200, [⟨[2, 48], some 0.5⟩]⟩) =
        if is_in_france 48 2 then
          if GEOCODE_SCORE_MIN ≤ (0.5 : ℚ) ∨ GEOCODE_SCORE_FALLBACK ≤ (0.5 : ℚ) then
            some (48, 2)
          else none
        else none := rfl
    have hin : is_in_france 48 2 = true := by
      simp only [is_in_france, decide_eq_true_eq]
      norm_num [FRANCE_LAT_MIN, FRANCE_LAT_MAX, FRANCE_LON_MIN, FRANCE_LON_MAX]
    rw [step, if_pos hin, if_pos (Or.inl (by norm_num [GEOCODE_SCORE_MIN]))]
  exact ((geocode_fallback_spec "x" (some ⟨200, [⟨[2, 48], some 0.5⟩]⟩) none
    (by decide)).1 (48, 2) hA).1

/-- C8: no valid record renders the default France map with no markers; one
valid record centers on it at zoom 14 with one marker; several valid
records center on the componentwise mean at the wider zoom 8, carry one
marker per valid record, and fit the rectangle of componentwise minima and
maxima with padding 30, 30; zoom 8 of the multi-point case is wider than
zoom 14 of the single-point case. -/
theorem display_map_spec :
    ∀ df : List AddressRecord,
      (validRecords df = [] → display_map df = create_empty_france_map) ∧
      (∀ r, validRecords df = [r] →
        display_map df = ⟨(r.latitude, r.longitude), 14,
          [create_marker r.latitude r.longitude r.adresse r.note], none⟩) ∧
      (∀ r1 r2 rest, validRecords df = r1 :: r2 :: rest →
        display_map df = ⟨(qMean ((validRecords df).map AddressRecord.latitude),
            qMean ((validRecords df).map AddressRecord.longitude)), 8,
            (validRecords df).map
              (fun r => create_marker r.latitude r.longitude r.adresse r.note),
            some (((qListMin ((validRecords df).map AddressRecord.latitude),
                    qListMin ((validRecords df).map AddressRecord.longitude)),
                   (qListMax ((validRecords df).map AddressRecord.latitude),
                    qListMax ((validRecords df).map AddressRecord.longitude))),
                  (30, 30))⟩ ∧
        qListMin ((validRecords df).map AddressRecord.latitude) ∈
          (validRecords df).map AddressRecord.latitude ∧
        qListMax ((validRecords df).map AddressRecord.latitude) ∈
          (validRecords df).map AddressRecord.latitude ∧
        qListMin ((validRecords df).map AddressRecord.longitude) ∈
          (validRecords df).map AddressRecord.longitude ∧
        qListMax ((validRecords df).map AddressRecord.longitude) ∈
          (validRecords df).map AddressRecord.longitude ∧
        (∀ x ∈ (validRecords df).map AddressRecord.latitude,
          qListMin ((validRecords df).map AddressRecord.latitude) ≤ x ∧
          x ≤ qListMax ((validRecords df).map AddressRecord.latitude)) ∧
        (∀ x ∈ (validRecords df).map AddressRecord.longitude,
          qListMin ((validRecords df).map AddressRecord.longitude) ≤ x ∧
          x ≤ qListMax ((validRecords df).map AddressRecord.longitude))) ∧
      (create_empty_france_map = ⟨FRANCE_CENTER, FRANCE_ZOOM, [], none⟩ ∧ (8 : ℕ) < 14) := by
  intro df
  refine ⟨?_, ?_, ?_, rfl, by norm_num⟩
  · intro h
    cases df with
    | nil => rfl
    | cons d ds =>
      simp only [display_map]
      rw [h]
  · intro r h
    cases df with
    | nil => exact absurd h (by simp [validRecords])
    | cons d ds =>
      simp only [display_map]
      rw [h]
  · intro r1 r2 rest h
    cases df with
    | nil => exact absurd h (by simp [validRecords])
    | cons d ds =>
      refine ⟨?_, ?_, ?_, ?_, ?_, ?_, ?_⟩
      · simp only [display_map]
        rw [h]
      · rw [h]
        simp only [List.map_cons]
        exact qListMin_mem _ _
      · rw [h]
        simp only [List.map_cons]
        exact qListMax_mem _ _
      · rw [h]
        simp only [List.map_cons]
        exact qListMin_mem _ _
      · rw [h]
        simp only [List.map_cons]
        exact qListMax_mem _ _
      · rw [h]
        simp only [List.map_cons]
        intro x hx
        exact ⟨qListMin_le _ _ x hx, qListMax_ge _ _ x hx⟩
      · rw [h]
        simp only [List.map_cons]
        intro x hx
        exact ⟨qListMin_le _ _ x hx, qListMax_ge _ _ x hx⟩

/-- C8 witness: one in-bounds record renders the tight single-point map;
two in-bounds records render at zoom 8. -/
theorem display_map_spec_witness :
    display_map [⟨"a", 45, 2, ""⟩] =
      ⟨(45, 2), 14, [create_marker 45 2 "a" ""], none⟩ ∧
    (display_map [⟨"a", 45, 2, ""⟩, ⟨"b", 47, 3, "n"⟩]).zoom = 8 := by
  have hin1 : is_in_france 45 2 = true := by
    simp only [is_in_france, decide_eq_true_eq]
    norm_num [FRANCE_LAT_MIN, FRANCE_LAT_MAX, FRANCE_LON_MIN, FRANCE_LON_MAX]
  have hin2 : is_in_france 47 3 = true := by
    simp only [is_in_france, decide_eq_true_eq]
    norm_num [FRANCE_LAT_MIN, FRANCE_LAT_MAX, FRANCE_LON_MIN, FRANCE_LON_MAX]
  have hv1 : validRecords [(⟨"a", 45, 2, ""⟩ : AddressRecord)] = [⟨"a", 45, 2, ""⟩] := by
    simp [validRecords, hin1]
  have hv2 : validRecords [(⟨"a", 45, 2, ""⟩ : AddressRecord), ⟨"b", 47, 3, "n"⟩] =
      [⟨"a", 45, 2, ""⟩, ⟨"b", 47, 3, "n"⟩] := by
    simp [validRecords, hin1, hin2]
  constructor
  · exact (display_map_spec [⟨"a", 45, 2, ""⟩]).2.1 ⟨"a", 45, 2, ""⟩ hv1
  · have h := ((display_map_spec [⟨"a", 45, 2, ""⟩, ⟨"b", 47, 3, "n"⟩]).2.2.1
      ⟨"a", 45, 2, ""⟩ ⟨"b", 47, 3, "n"⟩ [] hv2).1
    rw [h]

/-- C3 counterexample: on a fragment carrying two parenthesized groups the
source strips both from the address, while the claim wording (strip the
first group) would keep the second one. -/
theorem parse_first_group_only_counterexample :
    parse_addresses_with_notes "A (n1) (n2)" = [("A", "n1")] ∧
    parse_addresses_first_only "A (n1) (n2)" = [("A (n2)", "n1")] ∧
    parse_addresses_with_notes "A (n1) (n2)" ≠
      parse_addresses_first_only "A (n1) (n2)" := by decide

/-- C3 amended: the parser splits on commas preserving order and processes
fragments independently; each fragment takes the first parenthesized group
as the note and strips every parenthesized group, each with immediately
preceding whitespace, to obtain the clean address; fragments reducing to an
empty address are dropped; the three claim examples hold as stated. -/
theorem parse_addresses_spec_amended :
    (∀ s t : List Char, parseL (s ++ ',' :: t) = parseL s ++ parseL t) ∧
    (∀ l : List Char, ',' ∉ l → parseL l = (processFragment (stripL l)).toList) ∧
    parse_addresses_with_notes "A (note1), B, C (note2)" =
      [("A", "note1"), ("B", ""), ("C", "note2")] ∧
    parse_addresses_with_notes "" = [] ∧
    parse_addresses_with_notes "A,  ,B" = [("A", ""), ("B", "")] ∧
    parse_addresses_with_notes "A (n1) (n2)" = [("A", "n1")] := by
  refine ⟨?_, ?_, by decide, by decide, by decide, by decide⟩
  · intro s t
    rw [parseL, parseL, parseL, splitComma_append, List.map_append, List.filterMap_append]
  · intro l hl
    rw [parseL, splitComma_no_comma l hl]
    cases hpf : processFragment (stripL l) <;> simp [List.filterMap_cons, hpf]

/-- C3 witness: a comma-free input is one processed fragment. -/
theorem parse_addresses_spec_amended_witness :
    parseL "B".toList = (processFragment (stripL "B".toList)).toList ∧
    parseL "B".toList = [(['B'], [])] :=
  ⟨parse_addresses_spec_amended.2.1 "B".toList (by decide), by decide⟩

/-- C9 witness: index 0 on a three-record sheet removes the first record and
shrinks the sheet by one row. -/
theorem delete_address_spec_witness :
    delete_address [["h"], ["a"], ["b"], ["c"]] 0 = [["h"], ["b"], ["c"]] ∧
    (delete_address [["h"], ["a"], ["b"], ["c"]] 0).length + 1 = 4 := by
  have h := delete_address_spec ["h"] [["a"], ["b"], ["c"]] 0
  refine ⟨h.2.1 ["a"] [["b"], ["c"]], ?_⟩
  have h3 := h.2.2 (by decide)
  simpa using h3

end Passptt
